import Mathlib

/-
  Verification development for the RAG_Assistant repository.

  Shallow embedding of the parsing core of the two bots:
  - ICS_Calander_Event_Generation.py : parse_date, parse_time_12_24,
    smart_parse, build_ics
  - main.py : CalendarBot.parse_datetime (natural-language date/time resolver)

  Strings are modelled as List Char (ASCII inputs).  Python regular
  expression searches are embedded as explicit scanning functions with the
  same leftmost-match and greedy-with-backtracking semantics; the strptime
  formats used by the code are embedded shape by shape, following the
  regular expressions CPython generates for the directives d, m, Y, H, M
  (including validation of the assembled date, with the year defaulting to
  1900 for year-less formats, which in CPython rejects February 29).
  Dates are records of year/month/day; datetime values never carry real
  time zones here because both parsers compare datetimes of a single zone
  only.  Inputs are assumed newline-free (bot commands are single lines).
-/

namespace RagAssist

/-! ### Character and list-of-char utilities -/

def dval (c : Char) : Nat := c.toNat - 48

def isDigitC (c : Char) : Bool := c.isDigit

/-- Python word character for the regex word boundary, ASCII fragment. -/
def isWordC (c : Char) : Bool := c.isAlpha || c.isDigit || c == '_'

/-- Python whitespace (str.strip and the regex class backslash-s), ASCII. -/
def isSpaceC (c : Char) : Bool :=
  c == ' ' || c == '\t' || c == '\n' || c == '\r' ||
  c == Char.ofNat 11 || c == Char.ofNat 12

def lowerC (c : Char) : Char :=
  if 65 ≤ c.toNat ∧ c.toNat ≤ 90 then Char.ofNat (c.toNat + 32) else c

def lowerS (l : List Char) : List Char := l.map lowerC

/-- Python str.strip on ASCII text. -/
def trimS (l : List Char) : List Char :=
  ((l.dropWhile isSpaceC).reverse.dropWhile isSpaceC).reverse

def startsWithS : List Char → List Char → Bool
  | _, [] => true
  | [], _ :: _ => false
  | a :: as, b :: bs => a == b && startsWithS as bs

/-- Python substring containment (the in operator on str). -/
def containsSub : List Char → List Char → Bool
  | [], needle => needle.isEmpty
  | c :: t, needle => startsWithS (c :: t) needle || containsSub t needle

/-- Python str.split(sep, 1) on a one-character separator: the pieces
before and after the first occurrence, when the separator occurs. -/
def splitFirstAt (ch : Char) : List Char → Option (List Char × List Char)
  | [] => none
  | c :: t =>
    if c == ch then some ([], t)
    else (splitFirstAt ch t).map (fun p => (c :: p.1, p.2))

def wsplitAux : List Char → List Char → List (List Char)
  | [], cur => if cur.isEmpty then [] else [cur.reverse]
  | c :: t, cur =>
    if isSpaceC c then
      if cur.isEmpty then wsplitAux t [] else cur.reverse :: wsplitAux t []
    else wsplitAux t (c :: cur)

/-- Python str.split() with no argument: split on whitespace runs. -/
def wsplit (l : List Char) : List (List Char) := wsplitAux l []

def removeAllAux : Nat → List Char → List Char → List Char
  | 0, hay, _ => hay
  | _ + 1, [], _ => []
  | n + 1, c :: t, pat =>
    if startsWithS (c :: t) pat && !pat.isEmpty then
      removeAllAux n ((c :: t).drop pat.length) pat
    else c :: removeAllAux n t pat

/-- Python str.replace(pat, empty string): remove every non-overlapping
occurrence, scanning left to right. -/
def removeAll (pat hay : List Char) : List Char :=
  removeAllAux (hay.length + 1) hay pat

def natOfDigits (l : List Char) : Nat := l.foldl (fun a c => a * 10 + dval c) 0

def d2 (a b : Char) : Nat := 10 * dval a + dval b

/-! ### Calendar model (Python datetime.date semantics) -/

structure Date where
  year : Nat
  month : Nat
  day : Nat
deriving DecidableEq

def isLeapB (y : Nat) : Bool := y % 4 == 0 && (y % 100 != 0 || y % 400 == 0)

def monthLen (y m : Nat) : Nat :=
  if m = 2 then (if isLeapB y then 29 else 28)
  else if m = 4 ∨ m = 6 ∨ m = 9 ∨ m = 11 then 30
  else 31

/-- Days in months 1..m-1 of year y. -/
def daysBeforeMonth (y : Nat) : Nat → Nat
  | 0 => 0
  | 1 => 0
  | m + 2 => daysBeforeMonth y (m + 1) + monthLen y (m + 1)

/-- Constructibility of datetime.date(year, month, day) in Python
(MINYEAR = 1, MAXYEAR = 9999). -/
def validDate (d : Date) : Prop :=
  1 ≤ d.year ∧ d.year ≤ 9999 ∧ 1 ≤ d.month ∧ d.month ≤ 12 ∧
  1 ≤ d.day ∧ d.day ≤ monthLen d.year d.month

instance (d : Date) : Decidable (validDate d) := by
  unfold validDate; exact inferInstance

/-- Python date comparison (lexicographic on year, month, day). -/
def dateLt (a b : Date) : Prop :=
  a.year < b.year ∨ (a.year = b.year ∧
    (a.month < b.month ∨ (a.month = b.month ∧ a.day < b.day)))

instance (a b : Date) : Decidable (dateLt a b) := by
  unfold dateLt; exact inferInstance

/-- Proleptic Gregorian day number: date.toordinal() - 1.  Day 0 is
0001-01-01, a Monday. -/
def toDays (d : Date) : Nat :=
  365 * (d.year - 1) + (d.year - 1) / 4 - (d.year - 1) / 100 +
    (d.year - 1) / 400 + daysBeforeMonth d.year d.month + (d.day - 1)

/-- Python date.weekday(): Monday is 0 and Sunday is 6. -/
def weekdayOf (d : Date) : Nat := toDays d % 7

def nextDay (d : Date) : Date :=
  if d.day < monthLen d.year d.month then ⟨d.year, d.month, d.day + 1⟩
  else if d.month < 12 then ⟨d.year, d.month + 1, 1⟩
  else ⟨d.year + 1, 1, 1⟩

/-- date + timedelta(days = n). -/
def addDays (d : Date) : Nat → Date
  | 0 => d
  | n + 1 => nextDay (addDays d n)

/-! ### Calendar lemmas -/

theorem toDays_mk (y m d : Nat) :
    toDays ⟨y, m, d⟩ = 365 * (y - 1) + (y - 1) / 4 - (y - 1) / 100 +
      (y - 1) / 400 + daysBeforeMonth y m + (d - 1) := rfl

theorem validDate_mk (y m d : Nat) :
    validDate ⟨y, m, d⟩ ↔
      (1 ≤ y ∧ y ≤ 9999 ∧ 1 ≤ m ∧ m ≤ 12 ∧ 1 ≤ d ∧ d ≤ monthLen y m) :=
  Iff.rfl

theorem dateLt_mk (y1 m1 d1 y2 m2 d2 : Nat) :
    dateLt ⟨y1, m1, d1⟩ ⟨y2, m2, d2⟩ ↔
      (y1 < y2 ∨ (y1 = y2 ∧ (m1 < m2 ∨ (m1 = m2 ∧ d1 < d2)))) :=
  Iff.rfl

theorem nextDay_mk (y m d : Nat) :
    nextDay ⟨y, m, d⟩ =
      if d < monthLen y m then ⟨y, m, d + 1⟩
      else if m < 12 then ⟨y, m + 1, 1⟩
      else ⟨y + 1, 1, 1⟩ := rfl

theorem isLeap_iff (y : Nat) :
    isLeapB y = true ↔ (y % 4 = 0 ∧ (y % 100 ≠ 0 ∨ y % 400 = 0)) := by
  simp [isLeapB, Bool.and_eq_true, Bool.or_eq_true, beq_iff_eq, bne_iff_ne]

theorem monthLen_bounds (y m : Nat) : 28 ≤ monthLen y m ∧ monthLen y m ≤ 31 := by
  unfold monthLen
  split_ifs <;> omega

theorem monthLen_dec (y : Nat) : monthLen y 12 = 31 := by
  norm_num [monthLen]

theorem dbm_succ (y m : Nat) (h1 : 1 ≤ m) :
    daysBeforeMonth y (m + 1) = daysBeforeMonth y m + monthLen y m := by
  obtain ⟨n, rfl⟩ : ∃ n, m = n + 1 := ⟨m - 1, by omega⟩
  rfl

theorem dbm_dec (y : Nat) :
    daysBeforeMonth y 12 = 334 + (if isLeapB y then 1 else 0) := by
  cases h : isLeapB y <;> simp [daysBeforeMonth, monthLen, h]

theorem dbm_le (y : Nat) : ∀ m, daysBeforeMonth y m ≤ 31 * m := by
  intro m
  induction m with
  | zero => simp [daysBeforeMonth]
  | succ n ih =>
    cases n with
    | zero => simp [daysBeforeMonth]
    | succ p =>
      have hstep : daysBeforeMonth y (p + 1 + 1) =
          daysBeforeMonth y (p + 1) + monthLen y (p + 1) := rfl
      have hb := (monthLen_bounds y (p + 1)).2
      omega

set_option maxHeartbeats 2000000 in
theorem toDays_jan1_step (k : Nat) :
    toDays ⟨k + 2, 1, 1⟩ = toDays ⟨k + 1, 12, 31⟩ + 1 := by
  cases hL : isLeapB (k + 1)
  · have hdbm := dbm_dec (k + 1)
    rw [hL] at hdbm
    simp at hdbm
    have hiff := isLeap_iff (k + 1)
    rw [hL] at hiff
    simp at hiff
    simp only [toDays_mk]
    rw [show daysBeforeMonth (k + 2) 1 = 0 from rfl, hdbm]
    omega
  · have hdbm := dbm_dec (k + 1)
    rw [hL] at hdbm
    simp at hdbm
    have hiff := isLeap_iff (k + 1)
    rw [hL] at hiff
    simp at hiff
    simp only [toDays_mk]
    rw [show daysBeforeMonth (k + 2) 1 = 0 from rfl, hdbm]
    omega

theorem toDays_nextDay (d : Date) (hv : validDate d) :
    toDays (nextDay d) = toDays d + 1 := by
  obtain ⟨y, m, dd⟩ := d
  rw [validDate_mk] at hv
  obtain ⟨hy1, hy2, hm1, hm2, hd1, hd2⟩ := hv
  rw [nextDay_mk]
  split_ifs with h1 h2
  · simp only [toDays_mk]
    omega
  · have hms := dbm_succ y m hm1
    simp only [toDays_mk]
    omega
  · have hm12 : m = 12 := by omega
    subst hm12
    have h31 := monthLen_dec y
    have hdd : dd = 31 := by omega
    subst hdd
    obtain ⟨k, rfl⟩ : ∃ k, y = k + 1 := ⟨y - 1, by omega⟩
    exact toDays_jan1_step k

theorem nextDay_valid (d : Date) (hv : validDate d)
    (hne : d ≠ ⟨9999, 12, 31⟩) : validDate (nextDay d) := by
  obtain ⟨y, m, dd⟩ := d
  rw [validDate_mk] at hv
  obtain ⟨hy1, hy2, hm1, hm2, hd1, hd2⟩ := hv
  rw [nextDay_mk]
  split_ifs with h1 h2
  · rw [validDate_mk]
    omega
  · have hb := monthLen_bounds y (m + 1)
    rw [validDate_mk]
    omega
  · have hm12 : m = 12 := by omega
    subst hm12
    have h31 := monthLen_dec y
    have hdd : dd = 31 := by omega
    subst hdd
    have hy9 : y ≠ 9999 := fun he => hne (by rw [he])
    have hb := monthLen_bounds (y + 1) 1
    rw [validDate_mk]
    omega

theorem toDays_max : toDays ⟨9999, 12, 31⟩ = 3652058 := by decide

theorem addDays_spec (d : Date) (hv : validDate d) :
    ∀ k : Nat, toDays d + k ≤ 3652058 →
      validDate (addDays d k) ∧ toDays (addDays d k) = toDays d + k := by
  intro k
  induction k with
  | zero => intro _; exact ⟨hv, rfl⟩
  | succ n ih =>
    intro hle
    obtain ⟨ihv, ihd⟩ := ih (by omega)
    have hne : addDays d n ≠ ⟨9999, 12, 31⟩ := by
      intro he
      rw [he] at ihd
      have hmax := toDays_max
      omega
    have hv2 := nextDay_valid _ ihv hne
    have ht := toDays_nextDay _ ihv
    refine ⟨hv2, ?_⟩
    show toDays (nextDay (addDays d n)) = toDays d + (n + 1)
    omega

theorem toDays_small (d : Date) (hv : validDate d) (hy : d.year ≤ 9000) :
    toDays d + 14 ≤ 3652058 := by
  obtain ⟨y, m, dd⟩ := d
  rw [validDate_mk] at hv
  obtain ⟨hy1, _, hm1, hm2, hd1, hd2⟩ := hv
  have h1 : daysBeforeMonth y m ≤ 31 * m := dbm_le y m
  have h2 : (y - 1) / 4 ≤ y - 1 := Nat.div_le_self _ _
  have h3 : (y - 1) / 400 ≤ y - 1 := Nat.div_le_self _ _
  have h4 : dd ≤ 31 := le_trans hd2 (monthLen_bounds y m).2
  have hy9 : y ≤ 9000 := hy
  rw [toDays_mk]
  omega

theorem weekday_addDays (d : Date) (hv : validDate d) (k : Nat)
    (h : toDays d + k ≤ 3652058) :
    weekdayOf (addDays d k) = (weekdayOf d + k) % 7 := by
  have hs := (addDays_spec d hv k h).2
  unfold weekdayOf
  rw [hs]
  omega

/-! ### ClockTimeParser: parse_time_12_24 from ICS_Calander_Event_Generation.py

The three 24-hour fallbacks embed the regular expressions CPython compiles
for strptime directives H and M, with their alternation priority and
backtracking (H: 2[0-3] or [0-1] digit or single digit; M: [0-5] digit or
single digit), and the requirement that the whole token is consumed. -/

inductive Meridiem where
  | am
  | pm
deriving DecidableEq

structure Time where
  hour : Nat
  minute : Nat
deriving DecidableEq

/-- 12 am maps to 0, 12 pm stays 12, other pm hours gain 12, am unchanged. -/
def meridiemConvert (h : Nat) : Meridiem → Nat
  | .am => if h = 12 then 0 else h
  | .pm => if h = 12 then 12 else h + 12

/-- Backslash-s star followed by am or pm, consuming the whole list. -/
def meridiemTailFull (l : List Char) : Option Meridiem :=
  let r := l.dropWhile isSpaceC
  if r = ['a', 'm'] then some .am
  else if r = ['p', 'm'] then some .pm
  else none

/-- After the hour digits of the first 12-hour form: an optional group of a
colon plus exactly two digits, then whitespace and the meridiem, consuming
everything (re.fullmatch).  If the colon group matches but the tail fails,
the regex backtracks to skipping the optional group. -/
def form1After (h : Nat) (rest : List Char) : Option (Nat × Nat × Meridiem) :=
  match rest with
  | ':' :: c1 :: c2 :: rest2 =>
    if isDigitC c1 && isDigitC c2 then
      match meridiemTailFull rest2 with
      | some ap => some (h, d2 c1 c2, ap)
      | none => (meridiemTailFull (':' :: c1 :: c2 :: rest2)).map (fun ap => (h, 0, ap))
    else (meridiemTailFull (':' :: c1 :: c2 :: rest2)).map (fun ap => (h, 0, ap))
  | _ => (meridiemTailFull rest).map (fun ap => (h, 0, ap))

/-- re.fullmatch of one or two digits, an optional colon-minutes group,
optional space, am or pm.  The hour group is greedy: two digits first. -/
def form1Match (s : List Char) : Option (Nat × Nat × Meridiem) :=
  match s with
  | [] => none
  | c1 :: rest1 =>
    if isDigitC c1 then
      match rest1 with
      | c2 :: rest2 =>
        if isDigitC c2 then
          match form1After (d2 c1 c2) rest2 with
          | some r => some r
          | none => form1After (dval c1) rest1
        else form1After (dval c1) rest1
      | [] => form1After (dval c1) []
    else none

/-- re.fullmatch of one or two digits directly followed by am or pm. -/
def form2Match (s : List Char) : Option (Nat × Meridiem) :=
  match s with
  | [c1, a, b] =>
    if isDigitC c1 && (a == 'a' || a == 'p') && b == 'm' then
      some (dval c1, if a == 'a' then Meridiem.am else Meridiem.pm)
    else none
  | [c1, c2, a, b] =>
    if isDigitC c1 && isDigitC c2 && (a == 'a' || a == 'p') && b == 'm' then
      some (d2 c1 c2, if a == 'a' then Meridiem.am else Meridiem.pm)
    else none
  | _ => none

/-- strptime minute directive at the very end of the token: a digit in 0..5
followed by a digit, or a single digit. -/
def minTail2 : List Char → Option Nat
  | [m1] => if isDigitC m1 then some (dval m1) else none
  | [m1, m2] =>
    if isDigitC m1 && isDigitC m2 && dval m1 ≤ 5 then some (d2 m1 m2) else none
  | _ => none

/-- strptime with format H colon M. -/
def hColonM (l : List Char) : Option Time :=
  match l with
  | a :: b :: rest =>
    if isDigitC a && isDigitC b && d2 a b ≤ 23 then
      match rest with
      | ':' :: r2 => (minTail2 r2).map (fun mm => ⟨d2 a b, mm⟩)
      | _ => none
    else if isDigitC a && b == ':' then (minTail2 rest).map (fun mm => ⟨dval a, mm⟩)
    else none
  | _ => none

/-- strptime with format HM (compact), honouring the greedy hour with
backtracking: 1405 is 14:05, 05 is 0:05, 99 is 9:09, 845 is 8:45. -/
def hmCompact (l : List Char) : Option Time :=
  match l with
  | [a, b] => if isDigitC a && isDigitC b then some ⟨dval a, dval b⟩ else none
  | [a, b, c] =>
    if isDigitC a && isDigitC b && isDigitC c then
      if d2 a b ≤ 23 then some ⟨d2 a b, dval c⟩
      else if dval b ≤ 5 then some ⟨dval a, d2 b c⟩
      else none
    else none
  | [a, b, c, e] =>
    if isDigitC a && isDigitC b && isDigitC c && isDigitC e &&
        d2 a b ≤ 23 && dval c ≤ 5 then some ⟨d2 a b, d2 c e⟩
    else none
  | _ => none

/-- strptime with format H only (minute forced to 0 by the caller). -/
def hOnly (l : List Char) : Option Time :=
  match l with
  | [a] => if isDigitC a then some ⟨dval a, 0⟩ else none
  | [a, b] =>
    if isDigitC a && isDigitC b && d2 a b ≤ 23 then some ⟨d2 a b, 0⟩ else none
  | _ => none

/-- The three 24-hour fallbacks, tried in source order. -/
def parse24h (t : List Char) : Option Time :=
  match hColonM t with
  | some tm => some tm
  | none =>
    match hmCompact t with
    | some tm => some tm
    | none => hOnly t

/-- parse_time_12_24 from ICS_Calander_Event_Generation.py.  A matching
12-hour form whose numeric ranges fail returns none immediately, without
falling through to the 24-hour forms, exactly as in the source. -/
def parse_time_12_24 (text : List Char) : Option Time :=
  let s := lowerS (trimS text)
  match form1Match s with
  | some (h, mnt, ap) =>
    if 1 ≤ h ∧ h ≤ 12 ∧ mnt ≤ 59 then some ⟨meridiemConvert h ap, mnt⟩ else none
  | none =>
    match form2Match s with
    | some (h, ap) =>
      if 1 ≤ h ∧ h ≤ 12 then some ⟨meridiemConvert h ap, 0⟩ else none
    | none => parse24h (trimS text)

/-! ### CalendarDateParser: parse_date from ICS_Calander_Event_Generation.py

strptime directives per the CPython regular expressions: d is one or two
digits valued 1..31 (two-digit alternatives tried first), m is one or two
digits valued 1..12, Y is exactly four digits.  The whole token must be
consumed, which pins each format to token lengths 3..5 (year-less) or
8..10 (with year), so a fixed set of shapes is exhaustive.  After the
regex, strptime builds the date and a ValueError propagates as failure;
for year-less formats the year defaults to 1900 (CPython computes the
Feb-29 case with 1904 but resets the year to 1900 before the datetime
constructor runs, so February 29 without a year always fails). -/

def dayTok2 (a b : Char) : Bool := isDigitC a && isDigitC b && 1 ≤ d2 a b && d2 a b ≤ 31

def dayTok1 (a : Char) : Bool := isDigitC a && 1 ≤ dval a

def monTok2 (a b : Char) : Bool := isDigitC a && isDigitC b && 1 ≤ d2 a b && d2 a b ≤ 12

def monTok1 (a : Char) : Bool := isDigitC a && 1 ≤ dval a

def d4 (a b c e : Char) : Nat :=
  1000 * dval a + 100 * dval b + 10 * dval c + dval e

def yearTok (a b c e : Char) : Bool :=
  isDigitC a && isDigitC b && isDigitC c && isDigitC e

/-- datetime construction inside strptime: fails on an invalid date. -/
def mkValidDate (y m d : Nat) : Option Date :=
  if validDate ⟨y, m, d⟩ then some ⟨y, m, d⟩ else none

/-- strptime with format d sep m (no year): the matched day and month. -/
def strpDM (sep : Char) : List Char → Option (Nat × Nat)
  | [a, s, b] =>
    if dayTok1 a && s == sep && monTok1 b then some (dval a, dval b) else none
  | [a, b, s, c] =>
    if dayTok2 a b && s == sep && monTok1 c then some (d2 a b, dval c)
    else if dayTok1 a && b == sep && monTok2 s c then some (dval a, d2 s c)
    else none
  | [a, b, s, c, e] =>
    if dayTok2 a b && s == sep && monTok2 c e then some (d2 a b, d2 c e) else none
  | _ => none

/-- Year-less strptime including the construction check against the
default year 1900. -/
def strpDMnoYear (sep : Char) (l : List Char) : Option (Nat × Nat) :=
  match strpDM sep l with
  | some (dd, mm) => if dd ≤ monthLen 1900 mm then some (dd, mm) else none
  | none => none

/-- strptime with format d sep m sep Y. -/
def strpDMY (sep : Char) : List Char → Option Date
  | [a, s1, b, s2, y1, y2, y3, y4] =>
    if dayTok1 a && s1 == sep && monTok1 b && s2 == sep && yearTok y1 y2 y3 y4 then
      mkValidDate (d4 y1 y2 y3 y4) (dval b) (dval a)
    else none
  | [a, b, s1, c, s2, y1, y2, y3, y4] =>
    if dayTok2 a b && s1 == sep && monTok1 c && s2 == sep && yearTok y1 y2 y3 y4 then
      mkValidDate (d4 y1 y2 y3 y4) (dval c) (d2 a b)
    else if dayTok1 a && b == sep && monTok2 s1 c && s2 == sep && yearTok y1 y2 y3 y4 then
      mkValidDate (d4 y1 y2 y3 y4) (d2 s1 c) (dval a)
    else none
  | [a, b, s1, c, e, s2, y1, y2, y3, y4] =>
    if dayTok2 a b && s1 == sep && monTok2 c e && s2 == sep && yearTok y1 y2 y3 y4 then
      mkValidDate (d4 y1 y2 y3 y4) (d2 c e) (d2 a b)
    else none
  | _ => none

/-- strptime with format Y dash m dash d. -/
def strpYMD : List Char → Option Date
  | [y1, y2, y3, y4, s1, a, s2, b] =>
    if yearTok y1 y2 y3 y4 && s1 == '-' && monTok1 a && s2 == '-' && dayTok1 b then
      mkValidDate (d4 y1 y2 y3 y4) (dval a) (dval b)
    else none
  | [y1, y2, y3, y4, s1, a, b, s2, c] =>
    if yearTok y1 y2 y3 y4 && s1 == '-' && monTok2 a b && s2 == '-' && dayTok1 c then
      mkValidDate (d4 y1 y2 y3 y4) (d2 a b) (dval c)
    else if yearTok y1 y2 y3 y4 && s1 == '-' && monTok1 a && b == '-' && dayTok2 s2 c then
      mkValidDate (d4 y1 y2 y3 y4) (dval a) (d2 s2 c)
    else none
  | [y1, y2, y3, y4, s1, a, b, s2, c, e] =>
    if yearTok y1 y2 y3 y4 && s1 == '-' && monTok2 a b && s2 == '-' && dayTok2 c e then
      mkValidDate (d4 y1 y2 y3 y4) (d2 a b) (d2 c e)
    else none
  | _ => none

/-- The year-less branch of parse_date: assume the current year, roll
forward one year if the candidate already passed; a ValueError from either
date construction falls through to the next format (none here). -/
def yearlessResolve (sep : Char) (t : List Char) (today : Date) : Option Date :=
  match strpDMnoYear sep t with
  | some (dd, mm) =>
    if validDate ⟨today.year, mm, dd⟩ then
      if dateLt ⟨today.year, mm, dd⟩ today then
        (if validDate ⟨today.year + 1, mm, dd⟩ then some ⟨today.year + 1, mm, dd⟩
         else none)
      else some ⟨today.year, mm, dd⟩
    else none
  | none => none

/-- parse_date from ICS_Calander_Event_Generation.py: formats tried in
order Y-m-d, d-m-Y, d-m, d/m/Y, d/m, first success wins, failures
(including date-construction errors) continue with the next format.  The
hidden call to date.today() in the source is the explicit today argument
here. -/
def parse_date (text : List Char) (today : Date) : Option Date :=
  let t := trimS text
  match strpYMD t with
  | some d => some d
  | none =>
    match strpDMY '-' t with
    | some d => some d
    | none =>
      match yearlessResolve '-' t today with
      | some d => some d
      | none =>
        match strpDMY '/' t with
        | some d => some d
        | none => yearlessResolve '/' t today

/-! ### StrictCommandParser: smart_parse from ICS_Calander_Event_Generation.py -/

def DEFAULT_TZ : List Char := ("Asia/Kolkata").data

def DEFAULT_DURATION_MIN : Nat := 60

def MAX_REMINDER_MIN : Nat := 10080

inductive NeedTag where
  | schedule
  | dateTime
  | date
  | time
  | timeRange
deriving DecidableEq

structure EventData where
  timezone : List Char
  reminder : Nat
  location : Option (List Char)
  description : Option (List Char)
  title : List Char
  needsMore : Option NeedTag
  date : Option Date
  startTime : Option Time
  endTime : Option Time
deriving DecidableEq

def untitledTitle : List Char := ("Untitled").data

def isRchar (c : Char) : Bool := c == 'r' || c == 'R'

/-- Match of the reminder regex (word boundary, r or R, one to five digits,
word boundary) anchored at the head of l, with prev the character before.
The digit group is greedy with backtracking, so a run of six or more
digits can never match: every retract still leaves a digit, a word
character, after the group. -/
def remMatchHere (prev : Option Char) (l : List Char) : Option (Nat × List Char) :=
  match l with
  | [] => none
  | c :: t =>
    let okBefore := match prev with
      | none => true
      | some p => !(isWordC p)
    if isRchar c && okBefore then
      let ds := t.takeWhile isDigitC
      let n := ds.length
      if 1 ≤ n && n ≤ 5 then
        match t.drop n with
        | [] => some (natOfDigits ds, [])
        | e :: r => if isWordC e then none else some (natOfDigits ds, e :: r)
      else none
    else none

/-- re.search of the reminder regex, IGNORECASE: leftmost match, returning
the clamped-later value together with the text before and after the match. -/
def remSearch (prev : Option Char) : List Char → Option (Nat × List Char × List Char)
  | [] => none
  | c :: t =>
    match remMatchHere prev (c :: t) with
    | some (v, rest) => some (v, [], rest)
    | none => (remSearch (some c) t).map (fun r => (r.1, c :: r.2.1, r.2.2))

def locOkC (c : Char) : Bool := !(c == '!' || c == '@' || c == 'r')

/-- re.search of a hash followed by one or more characters other than
exclamation mark, at sign and lowercase r: the greedy captured run of the
leftmost match. -/
def locSearch : List Char → Option (List Char)
  | [] => none
  | c :: t =>
    if c == '#' then
      let run := t.takeWhile locOkC
      if run.isEmpty then locSearch t else some run
    else locSearch t

def dotOkC (c : Char) : Bool := !(c == '\n')

/-- re.search of an exclamation mark followed by a nonempty dot-plus run up
to the end of the string: returns (text before the match, captured group).
The dollar anchor also matches just before one trailing newline. -/
def descSearch : List Char → Option (List Char × List Char)
  | [] => none
  | c :: t =>
    if c == '!' then
      let run := t.takeWhile dotOkC
      if !run.isEmpty && (t.drop run.length = [] || t.drop run.length = ['\n']) then
        some ([], run)
      else (descSearch t).map (fun p => (c :: p.1, p.2))
    else (descSearch t).map (fun p => (c :: p.1, p.2))

/-- smart_parse from ICS_Calander_Event_Generation.py.  The hidden
date.today() consulted by parse_date is the explicit today argument. -/
def smart_parse (command : List Char) (today : Date) : EventData :=
  let text0 := trimS command
  let text1 := if startsWithS text0 (("/event").data) then trimS (text0.drop 6) else text0
  let step1 : Nat × List Char :=
    match remSearch none text1 with
    | some (v, pre, post) => (min MAX_REMINDER_MIN v, trimS (pre ++ ' ' :: post))
    | none => (0, text1)
  let rem := step1.1
  let text2 := step1.2
  let step2 : Option (List Char) × List Char :=
    match locSearch text2 with
    | some run => (some (trimS run), trimS (removeAll ('#' :: run) text2))
    | none => (none, text2)
  let loc := step2.1
  let text3 := step2.2
  let step3 : Option (List Char) × List Char :=
    match descSearch text3 with
    | some (pre, grp) => (some (trimS grp), trimS pre)
    | none => (none, text3)
  let desc := step3.1
  let text4 := step3.2
  let base : EventData :=
    { timezone := DEFAULT_TZ
      reminder := rem
      location := loc
      description := desc
      title := untitledTitle
      needsMore := none
      date := none
      startTime := none
      endTime := none }
  match splitFirstAt '@' text4 with
  | none =>
    { base with
      title := if (trimS text4).isEmpty then untitledTitle else trimS text4
      needsMore := some NeedTag.schedule }
  | some (tl, tr) =>
    let title0 := trimS tl
    let title := if title0.isEmpty then untitledTitle else title0
    let schedule := trimS tr
    match wsplit schedule with
    | dstr :: tstr :: _ =>
      (match parse_date dstr today with
       | none => { base with title := title, needsMore := some NeedTag.date }
       | some dobj =>
         match splitFirstAt '-' tstr with
         | some (s1, s2) =>
           (match parse_time_12_24 (trimS s1), parse_time_12_24 (trimS s2) with
            | some t1, some t2 =>
              { base with
                title := title
                date := some dobj
                startTime := some t1
                endTime := some t2 }
            | _, _ => { base with title := title, needsMore := some NeedTag.timeRange })
         | none =>
           (match parse_time_12_24 tstr with
            | some t1 =>
              { base with
                title := title
                date := some dobj
                startTime := some t1
                endTime := none }
            | none => { base with title := title, needsMore := some NeedTag.time }))
    | _ => { base with title := title, needsMore := some NeedTag.dateTime }

/-! ### IcsSerializer: build_ics from ICS_Calander_Event_Generation.py

The observable event component of the serialized calendar: start and end
instants (as absolute minutes of the single configured zone, since both
datetimes carry the same tzinfo), summary, location, description and the
display-alarm triggers in minutes relative to the start.  The uid and
dtstamp fields depend on the serialization instant and are outside this
model. -/

structure IcsEvent where
  summary : List Char
  dtstartAbs : Nat
  dtendAbs : Nat
  location : Option (List Char)
  description : Option (List Char)
  alarmTriggers : List Int
deriving DecidableEq

def absMinutes (d : Date) (t : Time) : Nat := 1440 * toDays d + 60 * t.hour + t.minute

def build_ics (date : Date) (startT : Time) (endT : Option Time)
    (title : List Char) (location description : Option (List Char))
    (reminder : Nat) : IcsEvent :=
  let s := absMinutes date startT
  let e0 := match endT with
    | some t => absMinutes date t
    | none => s + DEFAULT_DURATION_MIN
  let e := if e0 ≤ s then s + DEFAULT_DURATION_MIN else e0
  { summary := title
    dtstartAbs := s
    dtendAbs := e
    location := location
    description := description
    alarmTriggers := if 0 < reminder then [-(reminder : Int)] else [] }

/-! ### NaturalDateResolver: CalendarBot.parse_datetime from main.py

The resolver lowercases and strips the text, extracts an optional time
with re.search of one or two digits, an optional colon, an optional
two-digit group, optional whitespace and a required meridiem, then
resolves the date by the precedence today, tomorrow, weekday name, bare
day-of-month number, with a final fallback to the reference date.  The
hidden datetime.now() is the explicit now argument. -/

/-- Backslash-s star then am or pm at the head (search continues to the
right of the match, so no end-of-input requirement). -/
def meridiemHead (l : List Char) : Option Meridiem :=
  let r := l.dropWhile isSpaceC
  if startsWithS r ['a', 'm'] then some .am
  else if startsWithS r ['p', 'm'] then some .pm
  else none

/-- After the hour digits: an optional lone colon, an optional two-digit
group (greedy, retried without on failure), whitespace, meridiem. -/
def tsTail (rest : List Char) : Option (Option Nat × Meridiem) :=
  let r1 := match rest with
    | ':' :: r => r
    | _ => rest
  match r1 with
  | m1 :: m2 :: r2 =>
    if isDigitC m1 && isDigitC m2 then
      match meridiemHead r2 with
      | some ap => some (some (d2 m1 m2), ap)
      | none => (meridiemHead r1).map (fun ap => (none, ap))
    else (meridiemHead r1).map (fun ap => (none, ap))
  | _ => (meridiemHead r1).map (fun ap => (none, ap))

/-- The time regex anchored at the head of l: greedy one-or-two-digit hour
with backtracking, then the tail. -/
def timeSearchHere (l : List Char) : Option (Nat × Option Nat × Meridiem) :=
  match l with
  | [] => none
  | c1 :: rest1 =>
    if isDigitC c1 then
      match rest1 with
      | c2 :: rest2 =>
        if isDigitC c2 then
          match tsTail rest2 with
          | some (mo, ap) => some (d2 c1 c2, mo, ap)
          | none => (tsTail rest1).map (fun p => (dval c1, p.1, p.2))
        else (tsTail rest1).map (fun p => (dval c1, p.1, p.2))
      | [] => none
    else none

/-- re.search of the time regex: leftmost match. -/
def timeSearch : List Char → Option (Nat × Option Nat × Meridiem)
  | [] => none
  | c :: t =>
    match timeSearchHere (c :: t) with
    | some r => some r
    | none => timeSearch t

/-- The extracted time of parse_datetime, as the (hour, minute) pair that
the code formats into an HH:MM string; no range validation is performed,
so the hour may exceed 23 and the minute may exceed 59. -/
def pdTimeOf (s : List Char) : Option (Nat × Nat) :=
  match timeSearch s with
  | some (h, mo, ap) =>
    let mnt := mo.getD 0
    let h2 := match ap with
      | .pm => if h ≠ 12 then h + 12 else h
      | .am => if h = 12 then 0 else h
    some (h2, mnt)
  | none => none

def kwToday : List Char := ("today").data

def kwTomorrow : List Char := ("tomorrow").data

def kwNext : List Char := ("next").data

def weekdayNames : List (List Char) :=
  [("monday").data, ("tuesday").data, ("wednesday").data, ("thursday").data,
   ("friday").data, ("saturday").data, ("sunday").data]

def weekdayIdxAux (text : List Char) : Nat → List (List Char) → Option Nat
  | _, [] => none
  | i, d :: ds => if containsSub text d then some i else weekdayIdxAux text (i + 1) ds

/-- Index of the first weekday name, in the fixed list order monday..sunday,
contained in the text (the loop with break in the source). -/
def weekdayIdx (text : List Char) : Option Nat := weekdayIdxAux text 0 weekdayNames

/-- An ordinal suffix st, nd, rd or th at the head. -/
def ordSuffix (l : List Char) : Option (List Char) :=
  match l with
  | c1 :: c2 :: r =>
    if (c1 == 's' && c2 == 't') || (c1 == 'n' && c2 == 'd') ||
       (c1 == 'r' && c2 == 'd') || (c1 == 't' && c2 == 'h') then some r
    else none
  | _ => none

def boundaryAfter : List Char → Bool
  | [] => true
  | c :: _ => !(isWordC c)

/-- The day-number regex (word boundary, one or two digits, optional
ordinal suffix, word boundary) anchored at the head, prev being the
character before.  Backtracking order: two digits with suffix, two digits
without, one digit with suffix, one digit without. -/
def dayNumHere (prev : Option Char) (l : List Char) : Option Nat :=
  let okBefore := match prev with
    | none => true
    | some p => !(isWordC p)
  if !okBefore then none
  else
    match l with
    | [] => none
    | c1 :: rest1 =>
      if !(isDigitC c1) then none
      else
        match rest1 with
        | c2 :: rest2 =>
          if isDigitC c2 then
            match ordSuffix rest2 with
            | some r => if boundaryAfter r then some (d2 c1 c2) else none
            | none => if boundaryAfter rest2 then some (d2 c1 c2) else none
          else
            match ordSuffix rest1 with
            | some r => if boundaryAfter r then some (dval c1) else none
            | none => if boundaryAfter rest1 then some (dval c1) else none
        | [] => some (dval c1)

/-- re.search of the day-number regex: leftmost match. -/
def dayMatch : Option Char → List Char → Option Nat
  | _, [] => none
  | prev, c :: t =>
    match dayNumHere prev (c :: t) with
    | some v => some v
    | none => dayMatch (some c) t

/-- days_ahead before the next adjustment: target minus current weekday,
plus 7 when that difference is not positive. -/
def weekdayBase (wd target : Nat) : Nat :=
  if wd < target then target - wd else target + 7 - wd

/-- days_ahead after the next adjustment: 7 more when the text contains
next and the base offset is below 7. -/
def weekdayAhead (s : List Char) (wd target : Nat) : Nat :=
  if containsSub s kwNext ∧ weekdayBase wd target < 7 then weekdayBase wd target + 7
  else weekdayBase wd target

def nextMonthOf (d : Date) : Nat × Nat :=
  if d.month < 12 then (d.year, d.month + 1) else (d.year + 1, 1)

/-- The bare day-of-month branch: try the reference month, on an invalid
or already-past date try the following month (wrapping December to
January), and if that is also invalid yield no date (the caller then
defaults to the reference date). -/
def ordinalResolve (day : Nat) (now : Date) : Option Date :=
  if 1 ≤ day ∧ day ≤ 31 then
    if validDate ⟨now.year, now.month, day⟩ then
      if dateLt ⟨now.year, now.month, day⟩ now then
        (if validDate ⟨(nextMonthOf now).1, (nextMonthOf now).2, day⟩ then
          some ⟨(nextMonthOf now).1, (nextMonthOf now).2, day⟩
         else none)
      else some ⟨now.year, now.month, day⟩
    else
      (if validDate ⟨(nextMonthOf now).1, (nextMonthOf now).2, day⟩ then
        some ⟨(nextMonthOf now).1, (nextMonthOf now).2, day⟩
       else none)
  else none

/-- The date component of parse_datetime, on the lowered stripped text. -/
def pdDateOf (s : List Char) (now : Date) : Date :=
  if containsSub s kwToday then now
  else if containsSub s kwTomorrow then addDays now 1
  else
    match weekdayIdx s with
    | some target => addDays now (weekdayAhead s (weekdayOf now) target)
    | none =>
      match dayMatch none s with
      | some day =>
        (match ordinalResolve day now with
         | some d => d
         | none => now)
      | none => now

/-- CalendarBot.parse_datetime from main.py: (event_date, event_time). -/
def parse_datetime (text : List Char) (now : Date) : Date × Option (Nat × Nat) :=
  let s := lowerS (trimS text)
  (pdDateOf s now, pdTimeOf s)

/-! ### Helper lemmas about the parsers -/

theorem weekdayOf_lt (d : Date) : weekdayOf d < 7 := Nat.mod_lt _ (by norm_num)

/-- A successful year-less match pins the token to one of the three short
shapes; every with-year strptime format then fails on it, and so does the
year-less format with the other (non-digit) separator. -/
theorem strpDM_excl (sep sep2 : Char) (t : List Char) (p : Nat × Nat)
    (hne : sep2 ≠ sep) (hd1 : isDigitC sep = false) (hd2 : isDigitC sep2 = false)
    (h : strpDM sep t = some p) :
    strpYMD t = none ∧ strpDMY '-' t = none ∧ strpDMY '/' t = none ∧
    strpDM sep2 t = none := by
  have hne2 : sep ≠ sep2 := Ne.symm hne
  match t with
  | [] => simp [strpDM] at h
  | [a] => simp [strpDM] at h
  | [a, b] => simp [strpDM] at h
  | [a, s, b] =>
    refine ⟨rfl, rfl, rfl, ?_⟩
    simp only [strpDM] at h
    split_ifs at h with hc
    · simp only [Bool.and_eq_true, beq_iff_eq] at hc
      obtain ⟨⟨hday, hseq⟩, hmon⟩ := hc
      subst hseq
      simp [strpDM, hne2]
  | [a, b, s, c] =>
    refine ⟨rfl, rfl, rfl, ?_⟩
    simp only [strpDM] at h
    split_ifs at h with hc1 hc2
    · simp only [Bool.and_eq_true, beq_iff_eq] at hc1
      obtain ⟨⟨hday, hseq⟩, hmon⟩ := hc1
      subst hseq
      have hbd : isDigitC b = true := by
        simp only [dayTok2, Bool.and_eq_true] at hday
        exact hday.1.1.2
      simp [strpDM, hne2, monTok2, hd1, hbd, hd2]
    · simp only [Bool.and_eq_true, beq_iff_eq] at hc2
      obtain ⟨⟨hday, hseq⟩, hmon⟩ := hc2
      subst hseq
      have hsd : isDigitC s = true := by
        simp only [monTok2, Bool.and_eq_true] at hmon
        exact hmon.1.1.1
      simp [strpDM, hne2, dayTok2, hd1, hsd, hd2]
  | [a, b, s, c, e] =>
    refine ⟨rfl, rfl, rfl, ?_⟩
    simp only [strpDM] at h
    split_ifs at h with hc
    · simp only [Bool.and_eq_true, beq_iff_eq] at hc
      obtain ⟨⟨hday, hseq⟩, hmon⟩ := hc
      subst hseq
      simp [strpDM, hne2]
  | a :: b :: s :: c :: e :: f :: r => simp [strpDM] at h

/-- Inversion of the year-less strptime wrapper. -/
theorem strpDMnoYear_inv (sep : Char) (l : List Char) (dd mm : Nat)
    (h : strpDMnoYear sep l = some (dd, mm)) :
    strpDM sep l = some (dd, mm) ∧ dd ≤ monthLen 1900 mm := by
  rcases he : strpDM sep l with _ | ⟨d0, m0⟩
  · simp [strpDMnoYear, he] at h
  · simp only [strpDMnoYear, he] at h
    split_ifs at h with hle
    injection h with h2
    injection h2 with hd hm
    subst hd
    subst hm
    exact ⟨rfl, hle⟩

/-- For a token in one of the two year-less forms, parse_date reduces to
the year-less resolution branch for that separator. -/
theorem parse_date_yearless (text : List Char) (today : Date) (sep : Char)
    (dd mm : Nat) (hsep : sep = '-' ∨ sep = '/')
    (h : strpDMnoYear sep (trimS text) = some (dd, mm)) :
    parse_date text today = yearlessResolve sep (trimS text) today := by
  obtain ⟨hdm, _⟩ := strpDMnoYear_inv sep (trimS text) dd mm h
  rcases hsep with rfl | rfl
  · obtain ⟨hymd, hdmy1, hdmy2, hother⟩ :=
      strpDM_excl '-' '/' (trimS text) (dd, mm) (by decide) (by decide) (by decide) hdm
    rcases hyr : yearlessResolve '-' (trimS text) today with _ | d
    · simp only [parse_date, hymd, hdmy1, hyr, hdmy2]
      simp [yearlessResolve, strpDMnoYear, hother]
    · simp [parse_date, hymd, hdmy1, hyr]
  · obtain ⟨hymd, hdmy1, hdmy2, hother⟩ :=
      strpDM_excl '/' '-' (trimS text) (dd, mm) (by decide) (by decide) (by decide) hdm
    have hyr : yearlessResolve '-' (trimS text) today = none := by
      simp [yearlessResolve, strpDMnoYear, hother]
    simp [parse_date, hymd, hdmy1, hyr, hdmy2]

/-! ### The claims -/

/-- C1 The spec (and the parser docstring) promise that the command
"/event Team Sync @ 25-08 10:00 AM-11:15 AM #Office r15" yields title
Team Sync, location Office, reminder 15, start 10:00 and end 11:15.  The
code does complete with the right title, location, reminder and start,
but the schedule part is split on whitespace and only its second token,
10:00, becomes the time token, so the tail AM-11:15 AM is silently
dropped: start_time parses as the 24-hour 10:00 and end_time is none, not
11:15.  The reference date stands in for the hidden date.today(). -/
theorem c1_example_command_loses_end_time :
    smart_parse (("/event Team Sync @ 25-08 10:00 AM-11:15 AM #Office r15").data)
        ⟨2025, 10, 12⟩ =
      { timezone := DEFAULT_TZ
        reminder := 15
        location := some (("Office").data)
        description := none
        title := ("Team Sync").data
        needsMore := none
        date := some ⟨2026, 8, 25⟩
        startTime := some ⟨10, 0⟩
        endTime := none } ∧
    (smart_parse (("/event Team Sync @ 25-08 10:00 AM-11:15 AM #Office r15").data)
        ⟨2025, 10, 12⟩).endTime ≠ some ⟨11, 15⟩ := by
  constructor
  · decide
  · decide

/-- C2 The forms of parse_time_12_24 are tried in priority order: whenever
the first 12-hour form matches, its outcome (meridiem conversion under the
numeric range checks, otherwise failure with no fallthrough) is the final
answer; when neither 12-hour form matches, the answer is that of the
24-hour fallbacks.  Meridiem conversion maps 12 am to 0, 12 pm to 12,
other pm hours gain 12 and am hours are unchanged; 8pm parses to 20:00,
2:05 PM to 14:05, and parsing fails when a numeric range is violated
(13pm) or when no form matches at all. -/
theorem c2_clock_parser_priority_and_meridiem :
    (∀ l h mnt ap, form1Match (lowerS (trimS l)) = some (h, mnt, ap) →
      parse_time_12_24 l =
        (if 1 ≤ h ∧ h ≤ 12 ∧ mnt ≤ 59 then some ⟨meridiemConvert h ap, mnt⟩
         else none)) ∧
    (∀ l, form1Match (lowerS (trimS l)) = none →
      form2Match (lowerS (trimS l)) = none →
      parse_time_12_24 l = parse24h (trimS l)) ∧
    meridiemConvert 12 Meridiem.am = 0 ∧
    meridiemConvert 12 Meridiem.pm = 12 ∧
    (∀ h, h ≠ 12 →
      meridiemConvert h Meridiem.pm = h + 12 ∧ meridiemConvert h Meridiem.am = h) ∧
    parse_time_12_24 (("8pm").data) = some ⟨20, 0⟩ ∧
    parse_time_12_24 (("2:05 PM").data) = some ⟨14, 5⟩ ∧
    parse_time_12_24 (("13pm").data) = none ∧
    parse_time_12_24 (("abc").data) = none := by
  refine ⟨?_, ?_, rfl, rfl, ?_, by decide, by decide, by decide, by decide⟩
  · intro l h mnt ap hm
    simp only [parse_time_12_24, hm]
  · intro l h1 h2
    simp only [parse_time_12_24, h1, h2]
  · intro h hne
    constructor <;> simp [meridiemConvert, hne]

/-- C2 witness: the first conjunct applied to the concrete token 7 pm. -/
theorem c2_witness : parse_time_12_24 (("7 pm").data) = some ⟨19, 0⟩ := by
  have h := (c2_clock_parser_priority_and_meridiem).1 (("7 pm").data) 7 0
    Meridiem.pm (by decide)
  rw [h]
  decide

/-- C4 (amended) parse_date fails on 29/02/2025 because 2025 is not a leap
year, and the year-less token 29-02 always fails, for every reference
date: strptime validates the year-less date against the placeholder year
1900, which is not a leap year, so February 29 is rejected before the
reference-year and roll-forward logic can run. -/
theorem c4_feb29_never_resolves :
    (∀ ref : Date, parse_date (("29/02/2025").data) ref = none) ∧
    (∀ ref : Date, parse_date (("29-02").data) ref = none) := by
  constructor <;> intro ref <;> rfl

/-- C4 counterexample: with reference date 2028-01-15 the reference year
is a leap year and February 29 has not passed, so by the claim the
year-less token 29-02 should resolve to 2028-02-29, yet parse_date
fails. -/
theorem c4_counterexample :
    isLeapB 2028 = true ∧
    validDate ⟨2028, 2, 29⟩ ∧
    ¬ dateLt ⟨2028, 2, 29⟩ ⟨2028, 1, 15⟩ ∧
    parse_date (("29-02").data) ⟨2028, 1, 15⟩ = none := by
  refine ⟨rfl, by decide, by decide, rfl⟩

/-- C3 For every year-less token (day-month with dash or slash) accepted
by parse_date, the reference year is assumed; the result keeps the parsed
day and month, its year is the reference year or exactly one more, it is
one more if and only if the same-year candidate lies strictly before the
reference date, and in particular a candidate equal to the reference date
(not strictly before) is not rolled forward. -/
theorem c3_yearless_rollforward (text : List Char) (today : Date) (sep : Char)
    (dd mm : Nat) (hsep : sep = '-' ∨ sep = '/')
    (h : strpDMnoYear sep (trimS text) = some (dd, mm)) :
    ((validDate ⟨today.year, mm, dd⟩ ∧ ¬ dateLt ⟨today.year, mm, dd⟩ today) →
      parse_date text today = some ⟨today.year, mm, dd⟩) ∧
    ((validDate ⟨today.year, mm, dd⟩ ∧ dateLt ⟨today.year, mm, dd⟩ today ∧
        validDate ⟨today.year + 1, mm, dd⟩) →
      parse_date text today = some ⟨today.year + 1, mm, dd⟩) ∧
    (∀ r, parse_date text today = some r →
      r.month = mm ∧ r.day = dd ∧
      (r.year = today.year ∨ r.year = today.year + 1) ∧
      (r.year = today.year + 1 ↔ dateLt ⟨today.year, mm, dd⟩ today)) := by
  have hb := parse_date_yearless text today sep dd mm hsep h
  refine ⟨?_, ?_, ?_⟩
  · rintro ⟨hv, hnl⟩
    rw [hb]
    simp only [yearlessResolve, h]
    rw [if_pos hv, if_neg hnl]
  · rintro ⟨hv, hl, hv2⟩
    rw [hb]
    simp only [yearlessResolve, h]
    rw [if_pos hv, if_pos hl, if_pos hv2]
  · intro r hr
    rw [hb] at hr
    simp only [yearlessResolve, h] at hr
    split_ifs at hr with hv hl hv2
    · injection hr with h2
      subst h2
      refine ⟨rfl, rfl, Or.inr rfl, ?_⟩
      exact ⟨fun _ => hl, fun _ => rfl⟩
    · injection hr with h2
      subst h2
      refine ⟨rfl, rfl, Or.inl rfl, ?_⟩
      have hyr : (⟨today.year, mm, dd⟩ : Date).year = today.year := rfl
      rw [hyr]
      constructor
      · intro hy
        omega
      · intro hlt
        exact absurd hlt hl

/-- C3 witness: the token 05-01 against reference date 2025-06-15 rolls
forward to 2026-01-05. -/
theorem c3_witness :
    parse_date (("05-01").data) ⟨2025, 6, 15⟩ = some ⟨2026, 1, 5⟩ :=
  (c3_yearless_rollforward (("05-01").data) ⟨2025, 6, 15⟩ '-' 5 1 (Or.inl rfl)
    (by decide)).2.1 ⟨by decide, by decide, by decide⟩

/-- C9 For every completed intent, the serializer's effective end is
start plus the default duration whenever the end time is absent or not
strictly after the start, and the given end otherwise; the repair is a
total computation, never an error, and the start is emitted unchanged. -/
theorem c9_serializer_effective_end (date : Date) (startT : Time)
    (title : List Char) (loc desc : Option (List Char)) (rem : Nat) :
    ((build_ics date startT none title loc desc rem).dtendAbs =
      absMinutes date startT + DEFAULT_DURATION_MIN) ∧
    (∀ e : Time, absMinutes date e ≤ absMinutes date startT →
      (build_ics date startT (some e) title loc desc rem).dtendAbs =
        absMinutes date startT + DEFAULT_DURATION_MIN) ∧
    (∀ e : Time, absMinutes date startT < absMinutes date e →
      (build_ics date startT (some e) title loc desc rem).dtendAbs =
        absMinutes date e) ∧
    (∀ endT : Option Time,
      (build_ics date startT endT title loc desc rem).dtstartAbs =
        absMinutes date startT) := by
  refine ⟨?_, ?_, ?_, fun endT => rfl⟩
  · simp only [build_ics]
    split_ifs <;> rfl
  · intro e he
    simp only [build_ics]
    rw [if_pos he]
  · intro e he
    simp only [build_ics]
    rw [if_neg (by omega)]

/-- C9 witness: an end of 10:00 before a start of 11:00 is repaired to
start plus the default duration. -/
theorem c9_witness :
    (build_ics ⟨2025, 8, 25⟩ ⟨11, 0⟩ (some ⟨10, 0⟩) (("Late").data)
        none none 0).dtendAbs =
      absMinutes ⟨2025, 8, 25⟩ ⟨11, 0⟩ + DEFAULT_DURATION_MIN :=
  (c9_serializer_effective_end ⟨2025, 8, 25⟩ ⟨11, 0⟩ (("Late").data)
    none none 0).2.1 ⟨10, 0⟩ (by decide)

/-- Index of a matched weekday name is within the seven-day list. -/
theorem weekdayIdx_le (s : List Char) (t : Nat) (h : weekdayIdx s = some t) :
    t ≤ 6 := by
  simp only [weekdayIdx, weekdayNames, weekdayIdxAux] at h
  split_ifs at h <;> (injection h with h2; omega)

/-- C8 (amended) The reminder field of every parsed command lies in
[0, MAX_REMINDER_MIN] (it is a natural number, so never negative): a
matched token is clamped with min, so r99999 yields exactly the maximum;
but the regex accepts at most five digits between word boundaries, so the
six-digit token r999999 is not recognized at all and the reminder stays 0
rather than being clamped.  A reminder of 0 produces no alarm component
and a positive reminder produces exactly one display alarm triggering
that many minutes before the start. -/
theorem c8_reminder_clamped_and_alarms :
    (∀ cmd : List Char, ∀ today : Date,
      (smart_parse cmd today).reminder ≤ MAX_REMINDER_MIN) ∧
    (smart_parse (("/event T @ 25-08 10am r99999").data) ⟨2025, 10, 12⟩).reminder =
      MAX_REMINDER_MIN ∧
    (smart_parse (("/event T @ 25-08 10am r999999").data) ⟨2025, 10, 12⟩).reminder = 0 ∧
    (∀ date startT endT title loc desc,
      (build_ics date startT endT title loc desc 0).alarmTriggers = []) ∧
    (∀ date startT endT title loc desc rem, 0 < rem →
      (build_ics date startT endT title loc desc rem).alarmTriggers =
        [-((rem : Nat) : Int)] ∧ -((rem : Nat) : Int) < 0) := by
  refine ⟨?_, by decide, by decide, ?_, ?_⟩
  · intro cmd today
    simp only [smart_parse]
    repeat' split
    all_goals simp
  · intro date startT endT title loc desc
    simp [build_ics]
  · intro date startT endT title loc desc rem hrem
    refine ⟨by simp [build_ics, hrem], by omega⟩

/-- C8 counterexample: the six-digit token r999999 leaves the reminder at
0 although the command otherwise parses completely, refuting the claimed
clamping of r999999 to the maximum. -/
theorem c8_counterexample :
    (smart_parse (("/event T @ 25-08 10am r999999").data) ⟨2025, 10, 12⟩).needsMore =
      none ∧
    (smart_parse (("/event T @ 25-08 10am r999999").data) ⟨2025, 10, 12⟩).reminder ≠
      MAX_REMINDER_MIN := by
  exact ⟨by decide, by decide⟩

/-- C8 witness: a positive reminder of 15 minutes yields one display alarm
with a negative trigger. -/
theorem c8_witness :
    (build_ics ⟨2025, 8, 25⟩ ⟨10, 0⟩ none (("T").data) none none 15).alarmTriggers =
      [-((15 : Nat) : Int)] ∧ -((15 : Nat) : Int) < 0 :=
  (c8_reminder_clamped_and_alarms).2.2.2.2 ⟨2025, 8, 25⟩ ⟨10, 0⟩ none
    (("T").data) none none 15 (by decide)

/-- C5 For every text containing a weekday name but neither today nor
tomorrow, with t the first matching weekday in list order: the resolver
returns the reference date plus the computed offset; the base offset is
in 1..7, equals 7 exactly when the named weekday is the reference date's
weekday, lands on the named weekday, and is strictly after the reference
date; when the text contains next, 7 further days are added if and only
if the base offset is less than 7, and the final date still lands on the
named weekday.  (The year bound keeps the Python date type from
overflowing while stepping days.) -/
theorem c5_weekday_resolution (text : List Char) (now : Date) (t : Nat)
    (hv : validDate now) (hy : now.year ≤ 9000)
    (hT : containsSub (lowerS (trimS text)) kwToday = false)
    (hM : containsSub (lowerS (trimS text)) kwTomorrow = false)
    (hw : weekdayIdx (lowerS (trimS text)) = some t) :
    (parse_datetime text now).1 =
      addDays now (weekdayAhead (lowerS (trimS text)) (weekdayOf now) t) ∧
    1 ≤ weekdayBase (weekdayOf now) t ∧
    weekdayBase (weekdayOf now) t ≤ 7 ∧
    (weekdayBase (weekdayOf now) t = 7 ↔ t = weekdayOf now) ∧
    weekdayOf (addDays now (weekdayBase (weekdayOf now) t)) = t ∧
    toDays now < toDays (addDays now (weekdayBase (weekdayOf now) t)) ∧
    weekdayOf (addDays now (weekdayAhead (lowerS (trimS text)) (weekdayOf now) t)) = t ∧
    (containsSub (lowerS (trimS text)) kwNext = false →
      weekdayAhead (lowerS (trimS text)) (weekdayOf now) t =
        weekdayBase (weekdayOf now) t) ∧
    (containsSub (lowerS (trimS text)) kwNext = true →
      (weekdayAhead (lowerS (trimS text)) (weekdayOf now) t =
          weekdayBase (weekdayOf now) t + 7 ↔
        weekdayBase (weekdayOf now) t < 7)) := by
  have ht6 : t ≤ 6 := weekdayIdx_le _ _ hw
  have hwd : weekdayOf now < 7 := weekdayOf_lt now
  have hsm := toDays_small now hv hy
  have hbase1 : 1 ≤ weekdayBase (weekdayOf now) t := by
    unfold weekdayBase; split_ifs <;> omega
  have hbase7 : weekdayBase (weekdayOf now) t ≤ 7 := by
    unfold weekdayBase; split_ifs <;> omega
  have hahead : weekdayAhead (lowerS (trimS text)) (weekdayOf now) t ≤ 14 := by
    unfold weekdayAhead; split_ifs <;> omega
  have hwd1 := weekday_addDays now hv (weekdayBase (weekdayOf now) t) (by omega)
  have hspec := (addDays_spec now hv (weekdayBase (weekdayOf now) t) (by omega)).2
  have hwd2 := weekday_addDays now hv
    (weekdayAhead (lowerS (trimS text)) (weekdayOf now) t) (by omega)
  refine ⟨?_, hbase1, hbase7, ?_, ?_, ?_, ?_, ?_, ?_⟩
  · simp only [parse_datetime, pdDateOf, hT, hM, hw]
    simp
  · unfold weekdayBase
    split_ifs <;> omega
  · rw [hwd1]
    unfold weekdayBase
    split_ifs <;> omega
  · rw [hspec]
    omega
  · rw [hwd2]
    unfold weekdayAhead weekdayBase
    split_ifs <;> omega
  · intro hn
    unfold weekdayAhead
    simp [hn]
  · intro hn
    unfold weekdayAhead
    simp only [hn, true_and]
    split_ifs with hlt <;> omega

/-- C5 witness: dinner friday against the reference Sunday 2025-10-12. -/
theorem c5_witness :
    (parse_datetime (("dinner friday").data) ⟨2025, 10, 12⟩).1 =
      addDays ⟨2025, 10, 12⟩
        (weekdayAhead (lowerS (trimS (("dinner friday").data)))
          (weekdayOf ⟨2025, 10, 12⟩) 4) :=
  (c5_weekday_resolution (("dinner friday").data) ⟨2025, 10, 12⟩ 4 (by decide)
    (by decide) (by decide) (by decide) (by decide)).1

/-- C6 (amended) For every text whose date cue is a bare 1..31 number (no
today, tomorrow or weekday name): the resolver first tries that day in
the reference month and year and keeps it when it exists and is not
before the reference date; when it does not exist or lies strictly before
the reference date it tries the following month, wrapping December to the
January of the next year; and when that is also invalid the branch yields
no date and parse_datetime falls back to returning the reference date
itself rather than failing. -/
theorem c6_ordinal_day_resolution (text : List Char) (now : Date) (day : Nat)
    (hT : containsSub (lowerS (trimS text)) kwToday = false)
    (hM : containsSub (lowerS (trimS text)) kwTomorrow = false)
    (hwk : weekdayIdx (lowerS (trimS text)) = none)
    (hday : dayMatch none (lowerS (trimS text)) = some day)
    (h1 : 1 ≤ day) (h31 : day ≤ 31) :
    ((validDate ⟨now.year, now.month, day⟩ ∧
        ¬ dateLt ⟨now.year, now.month, day⟩ now) →
      (parse_datetime text now).1 = ⟨now.year, now.month, day⟩) ∧
    ((validDate ⟨now.year, now.month, day⟩ ∧ dateLt ⟨now.year, now.month, day⟩ now ∧
        validDate ⟨(nextMonthOf now).1, (nextMonthOf now).2, day⟩) →
      (parse_datetime text now).1 = ⟨(nextMonthOf now).1, (nextMonthOf now).2, day⟩) ∧
    ((¬ validDate ⟨now.year, now.month, day⟩ ∧
        validDate ⟨(nextMonthOf now).1, (nextMonthOf now).2, day⟩) →
      (parse_datetime text now).1 = ⟨(nextMonthOf now).1, (nextMonthOf now).2, day⟩) ∧
    (((¬ validDate ⟨now.year, now.month, day⟩ ∨
        dateLt ⟨now.year, now.month, day⟩ now) ∧
        ¬ validDate ⟨(nextMonthOf now).1, (nextMonthOf now).2, day⟩) →
      (parse_datetime text now).1 = now) ∧
    (nextMonthOf now =
      if now.month < 12 then (now.year, now.month + 1) else (now.year + 1, 1)) := by
  have hred : (parse_datetime text now).1 =
      (match ordinalResolve day now with
       | some d => d
       | none => now) := by
    simp only [parse_datetime, pdDateOf, hT, hM, hwk, hday]
    simp
  refine ⟨?_, ?_, ?_, ?_, rfl⟩
  · rintro ⟨hvc, hnl⟩
    rw [hred]
    simp [ordinalResolve, h1, h31, hvc, hnl]
  · rintro ⟨hvc, hl, hvn⟩
    rw [hred]
    simp [ordinalResolve, h1, h31, hvc, hl, hvn]
  · rintro ⟨hvc, hvn⟩
    rw [hred]
    simp [ordinalResolve, h1, h31, hvc, hvn]
  · rintro ⟨hor, hvn⟩
    rw [hred]
    rcases hor with hvc | hl
    · simp [ordinalResolve, h1, h31, hvc, hvn]
    · by_cases hvc : validDate ⟨now.year, now.month, day⟩
      · simp [ordinalResolve, h1, h31, hvc, hl, hvn]
      · simp [ordinalResolve, h1, h31, hvc, hvn]

/-- C6 counterexample: with reference date 2025-01-31 and text 30, the day
exists in January but lies in the past, February 30 does not exist, and
the function returns the reference date itself, refuting the claim that
date resolution fails rather than producing a date. -/
theorem c6_counterexample :
    validDate ⟨2025, 1, 30⟩ ∧
    dateLt ⟨2025, 1, 30⟩ ⟨2025, 1, 31⟩ ∧
    ¬ validDate ⟨2025, 2, 30⟩ ∧
    (parse_datetime (("30").data) ⟨2025, 1, 31⟩).1 = ⟨2025, 1, 31⟩ := by
  exact ⟨by decide, by decide, by decide, by decide⟩

/-- C6 witness: the text 5 against reference 2025-10-12 rolls to the fifth
of the following month. -/
theorem c6_witness :
    (parse_datetime (("5").data) ⟨2025, 10, 12⟩).1 = ⟨2025, 11, 5⟩ :=
  (c6_ordinal_day_resolution (("5").data) ⟨2025, 10, 12⟩ 5 (by decide) (by decide)
    (by decide) (by decide) (by decide) (by decide)).2.1
    ⟨by decide, by decide, by decide⟩

/-- C7 (amended) The time component of parse_datetime is exactly the
result of the meridiem regex search; whenever that search matches with an
hour of at most 12 and minutes of at most 59 the returned time is a valid
24-hour value, and when no match exists the time component is none rather
than an error.  (The regex itself checks no numeric ranges, so hours
above 12 produce out-of-range results; see the counterexample.) -/
theorem c7_time_extraction_validity :
    (∀ l : List Char, ∀ now : Date,
      (parse_datetime l now).2 = pdTimeOf (lowerS (trimS l))) ∧
    (∀ l : List Char, ∀ now : Date, ∀ h : Nat, ∀ mo : Option Nat, ∀ ap : Meridiem,
      timeSearch (lowerS (trimS l)) = some (h, mo, ap) → 1 ≤ h → h ≤ 12 →
      mo.getD 0 ≤ 59 →
      ∃ p : Nat × Nat, (parse_datetime l now).2 = some p ∧ p.1 ≤ 23 ∧ p.2 ≤ 59) ∧
    (∀ l : List Char, ∀ now : Date, timeSearch (lowerS (trimS l)) = none →
      (parse_datetime l now).2 = none) := by
  refine ⟨fun l now => rfl, ?_, ?_⟩
  · intro l now h mo ap hm hge hle hmin
    cases ap
    · exact ⟨(if h = 12 then 0 else h, mo.getD 0),
        by simp [parse_datetime, pdTimeOf, hm],
        by split_ifs <;> omega, hmin⟩
    · exact ⟨(if h ≠ 12 then h + 12 else h, mo.getD 0),
        by simp [parse_datetime, pdTimeOf, hm],
        by split_ifs <;> omega, hmin⟩
  · intro l now hm
    simp [parse_datetime, pdTimeOf, hm]

/-- C7 counterexample: the text 13 pm matches the extraction regex with
hour 13, and the returned time is 25:00, which is not a valid 24-hour
clock value, refuting the claim that every returned time is valid. -/
theorem c7_counterexample :
    (parse_datetime (("13 pm").data) ⟨2025, 10, 12⟩).2 = some (25, 0) ∧
    ¬ (25 ≤ 23) := by
  exact ⟨by decide, by decide⟩

/-- C7 witness: at 9 pm yields a valid time. -/
theorem c7_witness :
    ∃ p : Nat × Nat,
      (parse_datetime (("at 9 pm").data) ⟨2025, 10, 12⟩).2 = some p ∧
      p.1 ≤ 23 ∧ p.2 ≤ 59 :=
  (c7_time_extraction_validity).2.1 (("at 9 pm").data) ⟨2025, 10, 12⟩ 9 none
    Meridiem.pm (by decide) (by decide) (by decide) (by decide)

/-- C10 For every text containing both tuesday and monday (and neither
today nor tomorrow), wherever the two names appear, the resolver picks
monday: the fixed list order monday..sunday decides, the chosen index is
0, and the resolved date is the monday occurrence. -/
theorem c10_weekday_list_order (text : List Char) (now : Date)
    (hv : validDate now) (hy : now.year ≤ 9000)
    (hT : containsSub (lowerS (trimS text)) kwToday = false)
    (hM : containsSub (lowerS (trimS text)) kwTomorrow = false)
    (hmon : containsSub (lowerS (trimS text)) (("monday").data) = true)
    (htue : containsSub (lowerS (trimS text)) (("tuesday").data) = true) :
    weekdayIdx (lowerS (trimS text)) = some 0 ∧
    (parse_datetime text now).1 =
      addDays now (weekdayAhead (lowerS (trimS text)) (weekdayOf now) 0) ∧
    weekdayOf
      (addDays now (weekdayAhead (lowerS (trimS text)) (weekdayOf now) 0)) = 0 := by
  have hidx : weekdayIdx (lowerS (trimS text)) = some 0 := by
    simp only [weekdayIdx, weekdayNames, weekdayIdxAux, hmon, if_true]
  have hwd : weekdayOf now < 7 := weekdayOf_lt now
  have hsm := toDays_small now hv hy
  have hahead : weekdayAhead (lowerS (trimS text)) (weekdayOf now) 0 ≤ 14 := by
    unfold weekdayAhead weekdayBase; split_ifs <;> omega
  have hwd2 := weekday_addDays now hv
    (weekdayAhead (lowerS (trimS text)) (weekdayOf now) 0) (by omega)
  refine ⟨hidx, ?_, ?_⟩
  · simp only [parse_datetime, pdDateOf, hT, hM, hidx]
    simp
  · rw [hwd2]
    unfold weekdayAhead weekdayBase
    split_ifs <;> omega

/-- C10 witness: a text naming tuesday before monday still resolves from
monday (index 0). -/
theorem c10_witness :
    weekdayIdx (lowerS (trimS (("tuesday monday party").data))) = some 0 :=
  (c10_weekday_list_order (("tuesday monday party").data) ⟨2025, 10, 12⟩
    (by decide) (by decide) (by decide) (by decide) (by decide) (by decide)).1

end RagAssist
